import Mathlib

/-!
Shallow embedding of src/editor.js (the CodeEditor widget).

The embedding covers the language-keyed code buffer (this.code, the
CodeBufferMap of the specification), the configured language list, the XML
persistence (getStateAsXmlString, loadStateFromXml, loadStateFromXmlString),
clear, the language-selection state (changeLanguage, getSelectedLanguage),
the push and save delegations (pushCode, saveCode) and the change-listener
registry (addChangeListener, fireChangeListener).

DOM rendering and the CodeFlask engine are external collaborators; they are
modelled only through their observable effect on the controller state:
the engine's live input surface (the value of the textarea that pushCode and
saveCode read) is the field EditorState.textarea, and the edit callback that
refreshEditor installs with flask.onUpdate is the operation onUpdate.

The browser's DOMParser (text/xml) and Element.innerHTML, used by
loadStateFromXmlString and loadStateFromXml, are likewise platform
collaborators; they are modelled by parseFromString (a parser for the
dialect the widget reads and writes, returning none on a parse error, since
per the DOM standard an errored parse yields a document holding only a
parsererror element and hence no language elements) and by escapeXml
(the XML fragment serialization of a text node, which replaces the
characters ampersand, less-than and greater-than by their named entities).
-/

/-- One entry of CodeEditor.prototype.languages (a LanguageDescriptor,
source lines 24 to 48): option value, display text, file extension, an
optional overriding syntax name (blockly highlights as python) and the
read-only flag. -/
structure LanguageDescriptor where
  value : String
  text : String
  extension : String
  language : Option String
  readOnly : Bool
deriving Repr, DecidableEq

/-- The configured language list of the editor, source lines 24 to 48. -/
def languages : List LanguageDescriptor :=
  [⟨"python", "Python", ".py", none, false⟩,
   ⟨"javascript", "JavaScript", ".js", none, false⟩,
   ⟨"arduino", "Arduino", ".ino", none, false⟩,
   ⟨"blockly", "Blockly", ".py", some "python", true⟩]

/-- The CodeBufferMap: this.code, a plain object mapping a language
identifier to the stored source text; an absent key is none. -/
abbrev CodeMap := String → Option String

/-- Pointwise update of the buffer map: the effect of the assignment
this.code[key] = v in the source. -/
def updateMap (m : CodeMap) (key v : String) : CodeMap :=
  fun x => if x = key then some v else m x

/-- The buffer map with no entries (the initial this.code = {}). -/
def emptyCode : CodeMap := fun _ => none

/-- The controller state of one CodeEditor instance: the active language
(this.language), the buffer map (this.code), the live input surface of the
engine (the textarea value), the last scroll offset (this.scrollTop), the
registered listener identifiers (this.listeners_) and whether the push
button is styled disabled. -/
structure EditorState where
  language : String
  code : CodeMap
  textarea : String
  scrollTop : Option Int
  listeners : List Nat
  pushDisabled : Bool

/-- getLanguageAttributes (source lines 91 to 95): first element of the
filter of the configured list by the given identifier; the JS expression
yields undefined, here none, when the identifier is not configured. -/
def getLanguageAttributes (language : String) : Option LanguageDescriptor :=
  (languages.filter (fun item => item.value == language)).head?

/-- getSelectedLanguage (source lines 82 to 84). -/
def getSelectedLanguage (st : EditorState) : String :=
  st.language

/-- refreshEditor (source lines 233 to 265).  A missing or empty argument
falls back to this.language, or to python when that is empty (the JS
falsy test).  When the identifier is not configured, getLanguageAttributes
yields undefined and reading its fields throws, modelled as none.
Otherwise the engine is re-run and the buffer of the chosen language (or
the empty string) is loaded into the live input surface by flask.update;
the read-only flag and the scroll listener only touch the DOM.  The
flask.onUpdate callback installed here is modelled by onUpdate below. -/
def refreshEditor (st : EditorState) (languageArg : Option String) : Option EditorState :=
  let language :=
    match languageArg with
    | some l => if l = "" then (if st.language = "" then "python" else st.language) else l
    | none => if st.language = "" then "python" else st.language
  match getLanguageAttributes language with
  | none => none
  | some _ =>
    some { st with textarea := (st.code language).getD "" }

/-- The flask.onUpdate callback installed by refreshEditor (source lines
252 to 255): a user edit puts the typed text into the live input surface
and copies it into the buffer of the language bound at the last refresh,
which the controller keeps equal to the active language; it also fires a
CODE_UPDATED event to the external listeners. -/
def onUpdate (st : EditorState) (newCode : String) : EditorState :=
  { st with textarea := newCode, code := updateMap st.code st.language newCode }

/-- changeLanguage (source lines 217 to 227): assigns this.language first,
then refreshes the engine for that language and updates the push-button
styling (disabled unless python, updatePushButtonStatus lines 288 to 293).
The LANGUAGE_SELECTED event goes to external listeners and does not change
the controller state here.  An unconfigured identifier makes refreshEditor
throw, modelled as none. -/
def changeLanguage (st : EditorState) (language : String) : Option EditorState :=
  let st1 := { st with language := language }
  match refreshEditor st1 (some language) with
  | none => none
  | some st2 => some { st2 with pushDisabled := language != "python" }

/-- addCodeToEditor (source lines 301 to 303): stores code under the given
language without re-rendering, so the live input surface is untouched. -/
def addCodeToEditor (st : EditorState) (code language : String) : EditorState :=
  { st with code := updateMap st.code language code }

/-- pushCode (source lines 308 to 315): returns the text handed to
Kalebr.Console.upload, or none when no upload happens.  The method returns
at once unless the active language is python; otherwise it reads the raw
text of the live input surface and uploads it only when the ambient
console collaborator exists (the guard on Kalebr and Kalebr.Console). -/
def pushCode (consoleAvailable : Bool) (st : EditorState) : Option String :=
  if st.language != "python" then none
  else if consoleAvailable then some st.textarea else none

/-- JS array indexing by a string key, for this.languages[this.language]
in saveCode: an array has the element only under the canonical decimal
spelling of an index, every other string key yields undefined (none).
The digits of the key are folded to a number; a leading zero (except for
the key zero itself) or any non-digit makes the key non-canonical. -/
def jsArrayGetString (arr : List LanguageDescriptor) (key : String) : Option LanguageDescriptor :=
  let cs := key.data
  if cs.all Char.isDigit ∧ cs ≠ [] ∧ (cs.head? ≠ some '0' ∨ cs = ['0']) then
    arr.get? (cs.foldl (fun n c => 10 * n + (c.toNat - 48)) 0)
  else none

/-- JS string indexing by a string key, for extension[this.language] in
saveCode: a string has single-character elements under canonical numeric
keys and undefined (none) elsewhere. -/
def jsStringIndex (s key : String) : Option String :=
  let cs := key.data
  if cs.all Char.isDigit ∧ cs ≠ [] ∧ (cs.head? ≠ some '0' ∨ cs = ['0']) then
    (s.data.get? (cs.foldl (fun n c => 10 * n + (c.toNat - 48)) 0)).map
      (fun ch => String.mk [ch])
  else none

/-- saveCode (source lines 334 to 342): reads the live input surface into
the blob, evaluates this.languages[this.language].extension, and calls the
saveAs collaborator with fileName + extension[this.language].  The result
is the file name handed to saveAs, or an error when a property access on
an undefined value throws.  Because this.languages is an array and
this.language is a language name, the index yields undefined and reading
its extension field throws a TypeError before saveAs is reached. -/
def saveCode (st : EditorState) (fileName : String) : Except String String :=
  match jsArrayGetString languages st.language with
  | none => Except.error "TypeError: cannot read extension of undefined"
  | some descriptor =>
    match jsStringIndex descriptor.extension st.language with
    | some ch => Except.ok (fileName ++ ch)
    | none => Except.ok (fileName ++ "undefined")

/-- getStateAsXmlString (source lines 392 to 404): one node per configured
language, except that the blockly entry maps to undefined (JS return with
no value), which Array.prototype.join renders as the empty string; every
other entry is the open tag with the value attribute and a space before
the closing bracket, then the stored code (or the empty string for an
absent or empty buffer, the JS falsy default), then the end tag. -/
def getStateAsXmlString (c : CodeMap) : String :=
  "<editor>" ++
    String.join (languages.map (fun language =>
      if language.value = "blockly" then ""
      else "<language value=\"" ++ language.value ++ "\" >" ++
        ((c language.value).getD "") ++ "</language>")) ++
  "</editor>"

/-- One serialized language element as getStateAsXmlString writes it:
note the space between the value attribute and the closing bracket of the
open tag. -/
def languageElement (c : CodeMap) (v : String) : String :=
  "<language value=\"" ++ v ++ "\" >" ++ ((c v).getD "") ++ "</language>"

/-- The configured language identifiers that getStateAsXmlString
serializes, in configured order. -/
def nonBlocklyValues : List String :=
  (languages.filter (fun l => l.value != "blockly")).map (fun l => l.value)

/-- One language element of a parsed state document, as the DOM exposes it
to loadStateFromXml: the decoded value attribute and the decoded text
content of the element body. -/
structure LangElem where
  value : String
  body : String
deriving Repr, DecidableEq

/-- True for the XML whitespace characters. -/
def isXmlWs (c : Char) : Bool :=
  c == ' ' || c == '\n' || c == '\t' || c == '\r'

/-- Drops leading XML whitespace. -/
def dropWs : List Char → List Char
  | [] => []
  | c :: rest => if isXmlWs c then dropWs rest else c :: rest

/-- Removes an expected literal from the front of the input, or fails. -/
def stripPrefixChars : List Char → List Char → Option (List Char)
  | [], s => some s
  | _ :: _, [] => none
  | p :: ps, c :: cs => if c = p then stripPrefixChars ps cs else none

/-- Decodes one named character entity after an ampersand; any other use
of a raw ampersand is an XML parse error.  Numeric character references
are not modelled. -/
def readEntity (s : List Char) : Option (Char × List Char) :=
  match stripPrefixChars "amp;".data s with
  | some rest => some ('&', rest)
  | none =>
  match stripPrefixChars "lt;".data s with
  | some rest => some ('<', rest)
  | none =>
  match stripPrefixChars "gt;".data s with
  | some rest => some ('>', rest)
  | none =>
  match stripPrefixChars "quot;".data s with
  | some rest => some ('"', rest)
  | none =>
  match stripPrefixChars "apos;".data s with
  | some rest => some (Char.ofNat 39, rest)
  | none => none

/-- Reads character data up to the next tag-opening bracket, decoding
entities, rejecting a raw ampersand that starts no valid entity, and
applying the XML line-ending normalization (carriage return and carriage
return plus line feed both become a line feed).  Reaching the end of the
input before a bracket is a failure, since the dialect closes every
element.  The fuel argument bounds the recursion and is always given at
least the input length plus one. -/
def readText : Nat → List Char → Option (List Char × List Char)
  | 0, _ => none
  | _ + 1, [] => none
  | fuel + 1, c :: rest =>
    if c = '<' then some ([], c :: rest)
    else if c = '&' then
      match readEntity rest with
      | some (ch, rest2) => (readText fuel rest2).map (fun p => (ch :: p.1, p.2))
      | none => none
    else if c = '\r' then
      match rest with
      | '\n' :: rest2 => (readText fuel rest2).map (fun p => ('\n' :: p.1, p.2))
      | _ => (readText fuel rest).map (fun p => ('\n' :: p.1, p.2))
    else (readText fuel rest).map (fun p => (c :: p.1, p.2))

/-- Reads a double-quoted attribute value up to the closing quote,
decoding entities and rejecting a raw bracket or stray ampersand.
Attribute-value whitespace normalization is not modelled; the attribute
values of the dialect are plain identifiers. -/
def readAttrValue : Nat → List Char → Option (List Char × List Char)
  | 0, _ => none
  | _ + 1, [] => none
  | fuel + 1, c :: rest =>
    if c = '"' then some ([], rest)
    else if c = '<' then none
    else if c = '&' then
      match readEntity rest with
      | some (ch, rest2) => (readAttrValue fuel rest2).map (fun p => (ch :: p.1, p.2))
      | none => none
    else (readAttrValue fuel rest).map (fun p => (c :: p.1, p.2))

/-- Parses the remainder of a language element once the tag name has been
consumed: at least one whitespace character, the value attribute in double
quotes, optional whitespace, the closing bracket, the text body, and the
end tag. -/
def parseLangTail (fuel : Nat) (s : List Char) : Option (LangElem × List Char) :=
  match s with
  | [] => none
  | c :: rest =>
    if isXmlWs c then
      match stripPrefixChars "value=\"".data (dropWs rest) with
      | none => none
      | some s2 =>
        match readAttrValue fuel s2 with
        | none => none
        | some (val, s3) =>
          match dropWs s3 with
          | '>' :: s5 =>
            match readText fuel s5 with
            | none => none
            | some (body, s6) =>
              match stripPrefixChars "</language>".data s6 with
              | some s7 => some (⟨String.mk val, String.mk body⟩, s7)
              | none => none
          | _ => none
    else none

/-- Parses the children of the editor root: a sequence of language
elements (collected in document order) and ignored interstitial character
data, closed by the editor end tag followed only by whitespace.  Any
other markup is a parse error of the modelled dialect. -/
def parseContent : Nat → List Char → Option (List LangElem)
  | 0, _ => none
  | fuel + 1, s =>
    match stripPrefixChars "</editor>".data s with
    | some rest => if dropWs rest = [] then some [] else none
    | none =>
      match s with
      | [] => none
      | '<' :: rest =>
        match stripPrefixChars "language".data rest with
        | none => none
        | some rest2 =>
          match parseLangTail fuel rest2 with
          | none => none
          | some (el, s2) =>
            match parseContent fuel s2 with
            | some elems => some (el :: elems)
            | none => none
      | _ :: _ =>
        match readText fuel s with
        | none => none
        | some (_, s2) =>
          match s2 with
          | '<' :: _ => parseContent fuel s2
          | _ => none

/-- Models DOMParser.parseFromString with type text/xml on the state
dialect, composed with getElementsByTagName on language (source lines 430
and 412): the language elements of the document in document order, or
none on a parse error, in which case the DOM standard yields a document
holding only a parsererror element and hence no language elements. -/
def parseFromString (input : String) : Option (List LangElem) :=
  match stripPrefixChars "<editor".data (dropWs input.data) with
  | none => none
  | some s1 =>
    match dropWs s1 with
    | '>' :: s2 => parseContent (input.length + 1) s2
    | _ => none

/-- Models Element.innerHTML on a language element whose content is the
given text (source line 417): the XML fragment serialization of a text
node replaces ampersand, less-than and greater-than by their named
entities. -/
def escapeXml (s : String) : String :=
  String.mk (s.data.foldr (fun c acc =>
    if c = '&' then "&amp;".data ++ acc
    else if c = '<' then "&lt;".data ++ acc
    else if c = '>' then "&gt;".data ++ acc
    else c :: acc) [])

/-- loadStateFromXml (source lines 410 to 423), restricted to its effect
on the buffer map: for every language element of the document, in
document order, the innerHTML of the element is stored under its value
attribute.  The trailing refreshEditor call only reloads the rendering
surface and never writes to the buffer map. -/
def loadStateFromXml (doc : List LangElem) (c : CodeMap) : CodeMap :=
  doc.foldl (fun m e => updateMap m e.value (escapeXml e.body)) c

/-- loadStateFromXmlString (source lines 429 to 432), restricted to its
effect on the buffer map: parse, then loadStateFromXml; a parse error
yields a document without language elements, so the buffer map is
returned unchanged. -/
def loadStateFromXmlString (s : String) (c : CodeMap) : CodeMap :=
  match parseFromString s with
  | some doc => loadStateFromXml doc c
  | none => c

/-- clear (source lines 437 to 440): resets the buffer map to empty and
refreshes the currently active language. -/
def clear (st : EditorState) : Option EditorState :=
  refreshEditor { st with code := fun _ => none } none

/-- A change event as fired by the controller. -/
structure EditorEvent where
  type : String
  value : Option String

/-- addChangeListener (source lines 459 to 462) on the listener list:
appends the callback (identified by a number; callbacks are opaque) and
never deduplicates. -/
def addChangeListener (listeners : List Nat) (f : Nat) : List Nat :=
  listeners ++ [f]

/-- The firing loop of fireChangeListener over the snapshot, threading
the mutable listener list: invoking a callback is interpreted by an
arbitrary action act, so a callback may register or unregister listeners.
The result is the invocation sequence and the final listener list. -/
def fireLoop (act : Nat → EditorEvent → List Nat → List Nat) (ev : EditorEvent) :
    List Nat → List Nat → List Nat × List Nat
  | [], st => ([], st)
  | f :: rest, st =>
    let st2 := act f ev st
    let p := fireLoop act ev rest st2
    (f :: p.1, p.2)

/-- fireChangeListener (source lines 446 to 452): copies the listener
list (this.listeners_.slice()) and invokes each entry of the copy in
order, even while invocations mutate the live list. -/
def fireChangeListener (act : Nat → EditorEvent → List Nat → List Nat) (ev : EditorEvent)
    (listeners : List Nat) : List Nat × List Nat :=
  fireLoop act ev listeners listeners

/-- The controller state right after construction (source lines 12 to
76): active language python, empty buffer map, and the constructor's
initCodeFlask has refreshed the engine, leaving an empty live input
surface; no listeners, no recorded scroll offset, push button enabled. -/
def initState : EditorState :=
  { language := "python", code := fun _ => none, textarea := "",
    scrollTop := none, listeners := [], pushDisabled := false }

/-- Buffer map whose python entry contains markup characters; input for the
round-trip evaluation. -/
def cmapC1 : CodeMap := updateMap emptyCode "python" "a</language><language value=\"x\" >b"

/-- State reached by typing print(1) into the editor while python is active
and then calling addCodeToEditor with print(2): the buffer holds print(2)
while the live input surface still shows print(1). -/
def stDesync : EditorState := addCodeToEditor (onUpdate initState "print(1)") "print(2)" "python"

/-- State reached by typing x=1 into the editor while python is active. -/
def stPush : EditorState := onUpdate initState "x=1"

/-- The state produced by clear on the freshly constructed editor. -/
def clearedInit : EditorState := { initState with code := fun _ => none, textarea := "" }

set_option maxRecDepth 100000

/-- C1: the round-trip claim fails on the code.  getStateAsXmlString does
not escape the stored code, so a python buffer holding the text
a</language><language value="x" >b serializes into a well-formed document
in which that text is read back as markup: after the round trip the python
buffer holds a instead of the original text.  This theorem evaluates the
code at the failing input. -/
theorem roundtrip_markup_not_reproduced :
    loadStateFromXmlString (getStateAsXmlString cmapC1) cmapC1 "python" ≠ cmapC1 "python" ∧
    loadStateFromXmlString (getStateAsXmlString cmapC1) cmapC1 "python" = some "a" ∧
    cmapC1 "python" = some "a</language><language value=\"x\" >b" := by decide

/-- C2 counterexample: on the empty buffer map the serializer emits a space
between the value attribute and the closing bracket of every open tag, so
the output is not the claimed exact string without extra characters. -/
theorem getStateAsXmlString_spacing_cex :
    getStateAsXmlString emptyCode =
      "<editor><language value=\"python\" ></language><language value=\"javascript\" ></language><language value=\"arduino\" ></language></editor>" ∧
    getStateAsXmlString emptyCode ≠
      "<editor><language value=\"python\"></language><language value=\"javascript\"></language><language value=\"arduino\"></language></editor>" := by decide

/-- C2 amended: for every buffer map the output is exactly the editor
element containing, for each configured language except blockly and in
configured order, one element whose open tag carries the value attribute
followed by one space before the closing bracket, and whose body is the
verbatim stored code (empty for an absent buffer). -/
theorem getStateAsXmlString_format (c : CodeMap) :
    getStateAsXmlString c =
      "<editor>" ++ languageElement c "python" ++ languageElement c "javascript" ++
        languageElement c "arduino" ++ "</editor>" := by
  simp only [getStateAsXmlString, languageElement, languages, List.map, String.join, List.foldl]
  simp [String.append_assoc, String.empty_append, String.append_empty]

/-- C3: the save claim fails on the code, which indexes the languages array
with the language name: this.languages[this.language] is undefined, so
reading its extension field throws a TypeError for every file name, and no
save with proj.js (or any other name) is ever requested.  This theorem
evaluates the code at the failing input. -/
theorem saveCode_crashes_for_javascript (st : EditorState) (fileName : String)
    (h : st.language = "javascript") :
    saveCode st fileName = Except.error "TypeError: cannot read extension of undefined" := by
  unfold saveCode
  rw [h]
  rfl

/-- Witness for C3 at the concrete input of the claim. -/
theorem saveCode_crashes_witness :
    saveCode { initState with language := "javascript" } "proj" =
      Except.error "TypeError: cannot read extension of undefined" :=
  saveCode_crashes_for_javascript { initState with language := "javascript" } "proj" rfl

/-- C4: when the input fails to parse as the state dialect, the parsed
document exposes no language elements, so loadStateFromXmlString returns
the buffer map unchanged, with no partial application of the corrupt
load. -/
theorem loadStateFromXmlString_parse_error_keeps_buffers (c : CodeMap) (s : String)
    (h : parseFromString s = none) : loadStateFromXmlString s c = c := by
  simp [loadStateFromXmlString, h]

/-- Witness for C4 on a concrete malformed input. -/
theorem loadStateFromXmlString_parse_error_witness :
    loadStateFromXmlString "<editor" emptyCode = emptyCode ∧ parseFromString "<editor" = none :=
  ⟨loadStateFromXmlString_parse_error_keeps_buffers emptyCode "<editor" (by decide), by decide⟩

/-- C5 counterexample: pushCode reads the live input surface, not the
python buffer.  After typing print(1) and then replacing the buffer with
print(2) through addCodeToEditor (which does not re-render), pushCode
uploads print(1) while the current python buffer text is print(2). -/
theorem pushCode_uploads_surface_not_buffer_cex :
    pushCode true stDesync = some "print(1)" ∧ stDesync.code "python" = some "print(2)" ∧
    ("print(1)" : String) ≠ "print(2)" := by decide

/-- C5 amended: pushCode never uploads when the active language is not
python; when the active language is python it uploads exactly once, and
exactly the text of the engine's live input surface, provided the upload
collaborator is present (and nothing otherwise).  The surface text equals
the python buffer whenever the two are in sync, but not after
addCodeToEditor replaces the buffer without a refresh. -/
theorem pushCode_surface_behavior (b : Bool) (st : EditorState) :
    (st.language ≠ "python" → pushCode b st = none) ∧
    (st.language = "python" → pushCode b st = if b then some st.textarea else none) := by
  constructor
  · intro h
    simp [pushCode, h]
  · intro h
    simp [pushCode, h]

/-- Witness for C5 at a concrete python state with the collaborator
present. -/
theorem pushCode_surface_witness : pushCode true stPush = some "x=1" :=
  (pushCode_surface_behavior true stPush).2 rfl

/-- Folding a document prefix first is the same as folding the whole
document. -/
theorem loadStateFromXml_append (l1 l2 : List LangElem) (c : CodeMap) :
    loadStateFromXml (l1 ++ l2) c = loadStateFromXml l2 (loadStateFromXml l1 c) := by
  simp [loadStateFromXml, List.foldl_append]

/-- A key named by no element of the document is untouched by the load. -/
theorem loadStateFromXml_not_touched (doc : List LangElem) (c : CodeMap) (k : String)
    (h : ∀ x ∈ doc, x.value ≠ k) : loadStateFromXml doc c k = c k := by
  induction doc generalizing c with
  | nil => rfl
  | cons e rest ih =>
    have h1 : e.value ≠ k := h e (by simp)
    have h2 : ∀ x ∈ rest, x.value ≠ k := fun x hx => h x (by simp [hx])
    have hstep : loadStateFromXml (e :: rest) c =
        loadStateFromXml rest (updateMap c e.value (escapeXml e.body)) := rfl
    rw [hstep, ih _ h2]
    simp only [updateMap]
    rw [if_neg (fun hk => h1 hk.symm)]

/-- C6: every language element of the document is read, wherever it
occurs in the document, and its body (as the DOM innerHTML exposes it) is
stored under its value attribute, also for identifiers outside the
configured list; later elements with the same identifier override earlier
ones, so the element whose identifier recurs in no later element
determines the final entry. -/
theorem loadStateFromXml_stores_every_element (pre post : List LangElem) (e : LangElem)
    (c : CodeMap) (h : ∀ x ∈ post, x.value ≠ e.value) :
    loadStateFromXml (pre ++ e :: post) c e.value = some (escapeXml e.body) := by
  rw [loadStateFromXml_append]
  have hstep : loadStateFromXml (e :: post) (loadStateFromXml pre c) =
      loadStateFromXml post (updateMap (loadStateFromXml pre c) e.value (escapeXml e.body)) := rfl
  rw [hstep, loadStateFromXml_not_touched post _ e.value h]
  simp [updateMap]

/-- Witness for C6: an element with the unconfigured identifier ruby,
placed between configured ones, is stored under ruby. -/
theorem loadStateFromXml_stores_witness :
    loadStateFromXml [⟨"arduino", "void loop()"⟩, ⟨"ruby", "puts 1"⟩, ⟨"python", "x=1"⟩]
      emptyCode "ruby" = some (escapeXml "puts 1") :=
  loadStateFromXml_stores_every_element [⟨"arduino", "void loop()"⟩] [⟨"python", "x=1"⟩]
    ⟨"ruby", "puts 1"⟩ emptyCode (by decide)

/-- The invocation sequence of the firing loop is the snapshot it was
started on, whatever the invoked callbacks do to the live list. -/
theorem fireLoop_fst (act : Nat → EditorEvent → List Nat → List Nat) (ev : EditorEvent) :
    ∀ l st : List Nat, (fireLoop act ev l st).1 = l := by
  intro l
  induction l with
  | nil => intro st; rfl
  | cons f rest ih =>
    intro st
    simp [fireLoop, ih]

/-- C7: fireChangeListener invokes exactly the listeners registered before
the fire, each once and in registration order: the invocation sequence
equals the listener list at fire time, for every mutation behaviour of the
invoked callbacks (the pass iterates over a snapshot), and
addChangeListener appends to the end of the list. -/
theorem fireChangeListener_snapshot :
    (∀ (act : Nat → EditorEvent → List Nat → List Nat) (ev : EditorEvent) (listeners : List Nat),
      (fireChangeListener act ev listeners).1 = listeners) ∧
    (∀ (listeners : List Nat) (f : Nat), addChangeListener listeners f = listeners ++ [f]) := by
  constructor
  · intro act ev l
    exact fireLoop_fst act ev l l
  · intro l f
    rfl

/-- C8: for every configured language identifier, changeLanguage succeeds
and the subsequent getSelectedLanguage returns that identifier. -/
theorem changeLanguage_then_getSelectedLanguage (st : EditorState) (L : String)
    (h : L ∈ languages.map (fun l => l.value)) :
    ∃ st2, changeLanguage st L = some st2 ∧ getSelectedLanguage st2 = L := by
  simp [languages] at h
  rcases h with h | h | h | h <;> subst h <;> exact ⟨_, rfl, rfl⟩

/-- Witness for C8 at the freshly constructed editor and arduino. -/
theorem changeLanguage_witness :
    ∃ st2, changeLanguage initState "arduino" = some st2 ∧ getSelectedLanguage st2 = "arduino" :=
  changeLanguage_then_getSelectedLanguage initState "arduino" (by decide)

/-- The serialization of the empty buffer map parses back into exactly one
empty-bodied element per configured non-blockly language. -/
theorem parse_clear_output :
    parseFromString (getStateAsXmlString (fun _ => none)) =
      some [⟨"python", ""⟩, ⟨"javascript", ""⟩, ⟨"arduino", ""⟩] := by decide

/-- C9: after clear, the serialized state parses into the editor element
whose language children, one per configured non-blockly language, all have
empty bodies. -/
theorem clear_state_empty_bodies (st st2 : EditorState) (h : clear st = some st2) :
    parseFromString (getStateAsXmlString st2.code) =
      some [⟨"python", ""⟩, ⟨"javascript", ""⟩, ⟨"arduino", ""⟩] := by
  simp only [clear, refreshEditor] at h
  split at h
  · exact absurd h (by simp)
  · rw [Option.some_inj] at h
    subst h
    exact parse_clear_output

/-- Witness for C9 on the freshly constructed editor. -/
theorem clear_state_witness :
    parseFromString (getStateAsXmlString clearedInit.code) =
      some [⟨"python", ""⟩, ⟨"javascript", ""⟩, ⟨"arduino", ""⟩] :=
  clear_state_empty_bodies initState clearedInit rfl

/-- C10: the serialized state is determined solely by the buffers of the
configured non-blockly languages, which are python, javascript and arduino
in configured order; entries under any other key never influence the
output. -/
theorem getStateAsXmlString_depends_only_on_nonblockly :
    (∀ c1 c2 : CodeMap, (∀ v ∈ nonBlocklyValues, c1 v = c2 v) →
      getStateAsXmlString c1 = getStateAsXmlString c2) ∧
    nonBlocklyValues = ["python", "javascript", "arduino"] := by
  constructor
  · intro c1 c2 h
    have hp := h "python" (by decide)
    have hj := h "javascript" (by decide)
    have ha := h "arduino" (by decide)
    simp [getStateAsXmlString, languages, hp, hj, ha]
  · decide

/-- Witness for C10: an entry under the unconfigured key ruby leaves the
output unchanged. -/
theorem getStateAsXmlString_depends_witness :
    getStateAsXmlString emptyCode = getStateAsXmlString (updateMap emptyCode "ruby" "x") :=
  getStateAsXmlString_depends_only_on_nonblockly.1 emptyCode (updateMap emptyCode "ruby" "x")
    (by decide)
